import Mathlib

/-!
Verification of the velero volume resource policy matcher
(`internal/resourcepolicies`).

The repository ships the test file `volume_resources_test.go`; the
implementation under test (`volume_resources.go`) is not part of the
source tree here, so every operation below is modelled from the
specification's description of that component (§4.1–§4.4 of the spec),
keeping the Go names where Lean allows it.  Kubernetes `resource.Quantity`
values are embedded by their canonical numeric value (`Int`), string maps
by association lists over `String`.
-/

namespace ResourcePolicies

/-- Modelled from the spec: the network-file-share identity
`{server: string, path: string}` (§3, Normalized Volume). -/
structure nFSVolumeSource where
  Server : String
  Path : String
deriving DecidableEq, Repr

/-- Modelled from the spec: the CSI identity
`{driver: string, attributes: mapping[string]string}` (§3). -/
structure csiVolumeSource where
  Driver : String
  VolumeAttributes : List (String × String)
deriving DecidableEq, Repr

/-- Modelled from the spec: the Quantity Range `{lower, upper}` of §3/§4.1,
holding the canonical numeric values of two capacity quantities. -/
structure capacity where
  lower : Int
  upper : Int
deriving DecidableEq, Repr

/-- Modelled from the spec: the Normalized Volume descriptor (§3).
`pvcLabels` distinguishes absent (`none`) from present-but-empty
(`some []`), as the spec requires. -/
structure structuredVolume where
  capacity : Int
  storageClass : String
  nfs : Option nFSVolumeSource
  csi : Option csiVolumeSource
  pvcLabels : Option (List (String × String))
deriving DecidableEq, Repr

/-- Association-list lookup standing in for Go map indexing. -/
def mapLookup : List (String × String) → String → Option String
  | [], _ => none
  | (k, v) :: rest, key => if k = key then some v else mapLookup rest key

/-- Modelled from the spec: the shared subset-match rule (§4.2): every
`(k, v)` of the condition map must appear with exactly the value `v` in the
candidate map; extra candidate keys are ignored; an empty condition map is
vacuously satisfied. -/
def subsetMatch (cond cand : List (String × String)) : Bool :=
  cond.all fun kv => mapLookup cand kv.1 == some kv.2

/-! ### Condition types (§4.2) -/

structure storageClassCondition where
  storageClass : List String
deriving DecidableEq, Repr

structure capacityCondition where
  capacity : capacity
deriving DecidableEq, Repr

structure nfsCondition where
  nfs : Option nFSVolumeSource
deriving DecidableEq, Repr

structure csiCondition where
  csi : Option csiVolumeSource
deriving DecidableEq, Repr

structure pvcLabelsCondition where
  labels : List (String × String)
deriving DecidableEq, Repr

/-- Modelled from the spec: `Range.isInRange(q)` (§4.1): true when the
range is unconstrained; with an open upper bound true iff `q ≥ lower`;
otherwise true iff `lower ≤ q ≤ upper`, inclusive. -/
def capacity.isInRange (c : capacity) (q : Int) : Bool :=
  if c.lower = 0 ∧ c.upper = 0 then true
  else if c.upper = 0 then decide (c.lower ≤ q)
  else decide (c.lower ≤ q ∧ q ≤ c.upper)

/-- Modelled from the spec: storage-class predicate (§4.2): empty
allow-list matches; otherwise the volume's storage class must be non-empty
and present in the list. -/
def storageClassCondition.matches (c : storageClassCondition) (v : structuredVolume) : Bool :=
  match c.storageClass with
  | [] => true
  | _ :: _ =>
    if v.storageClass = "" then false
    else decide (v.storageClass ∈ c.storageClass)

/-- Modelled from the spec: capacity predicate (§4.2) delegates to
`isInRange` on the volume's capacity. -/
def capacityCondition.matches (c : capacityCondition) (v : structuredVolume) : Bool :=
  c.capacity.isInRange v.capacity

/-- Modelled from the spec: network-share predicate (§4.2): nil condition
matches; otherwise the volume must carry an nfs identity and each of
server/path, when non-empty in the condition, must equal the volume's
field exactly. -/
def nfsCondition.matches (c : nfsCondition) (v : structuredVolume) : Bool :=
  match c.nfs with
  | none => true
  | some cn =>
    match v.nfs with
    | none => false
    | some vn =>
      if cn.Server ≠ "" ∧ cn.Server ≠ vn.Server then false
      else if cn.Path ≠ "" ∧ cn.Path ≠ vn.Path then false
      else true

/-- Modelled from the spec: CSI predicate (§4.2): nil condition matches;
otherwise the volume must carry a csi identity, a non-empty condition
driver must equal the volume's driver, and the condition attributes must
be a subset of the volume's attributes. -/
def csiCondition.matches (c : csiCondition) (v : structuredVolume) : Bool :=
  match c.csi with
  | none => true
  | some cc =>
    match v.csi with
    | none => false
    | some vc =>
      if cc.Driver ≠ "" ∧ cc.Driver ≠ vc.Driver then false
      else subsetMatch cc.VolumeAttributes vc.VolumeAttributes

/-- Modelled from the spec: PVC-label predicate (§4.2): empty condition
map matches; otherwise every condition pair must appear identically in the
volume's label map, and a nil volume label map fails any non-empty
condition. -/
def pvcLabelsCondition.matches (c : pvcLabelsCondition) (v : structuredVolume) : Bool :=
  match c.labels with
  | [] => true
  | _ :: _ =>
    match v.pvcLabels with
    | none => false
    | some m => subsetMatch c.labels m

/-- Modelled from the spec: a Condition Bundle (§3) holding the five
optional predicates of one configured rule, each at its unset value when
not configured. -/
structure conditionBundle where
  capacity : capacity
  storageClass : List String
  nfs : Option nFSVolumeSource
  csi : Option csiVolumeSource
  pvcLabels : List (String × String)
deriving DecidableEq, Repr

/-- Modelled from the spec: the bundle verdict is the logical AND of its
member predicates (§4.2); a structurally unset member contributes `true`. -/
def conditionBundle.matches (b : conditionBundle) (v : structuredVolume) : Bool :=
  capacityCondition.matches ⟨b.capacity⟩ v
    && storageClassCondition.matches ⟨b.storageClass⟩ v
    && nfsCondition.matches ⟨b.nfs⟩ v
    && csiCondition.matches ⟨b.csi⟩ v
    && pvcLabelsCondition.matches ⟨b.pvcLabels⟩ v

/-- The bundle with every predicate unset. -/
def emptyBundle : conditionBundle :=
  { capacity := ⟨0, 0⟩, storageClass := [], nfs := none, csi := none, pvcLabels := [] }

/-! ### Quantity parsing (§4.1, §6)

The spec describes capacity quantities in Kubernetes-style notation: a
plain integer with an optional binary (`Ki`, `Mi`, …) or decimal (`k`,
`M`, …) magnitude suffix, compared by canonical numeric value. -/

/-- Numeric value of a decimal digit character. -/
def charDigitVal (c : Char) : Nat := c.toNat - 48

/-- Value of a non-empty digit string, most significant digit first. -/
def natOfDigits (l : List Char) : Nat :=
  l.foldl (fun a c => a * 10 + charDigitVal c) 0

/-- Modelled from the spec: multiplier of a quantity magnitude suffix —
binary suffixes `Ki`…`Ei` and decimal suffixes `k`…`E`; the empty suffix
means a plain integer; anything else is rejected. -/
def suffixMultiplier : List Char → Option Int
  | [] => some 1
  | ['K', 'i'] => some (2 ^ 10)
  | ['M', 'i'] => some (2 ^ 20)
  | ['G', 'i'] => some (2 ^ 30)
  | ['T', 'i'] => some (2 ^ 40)
  | ['P', 'i'] => some (2 ^ 50)
  | ['E', 'i'] => some (2 ^ 60)
  | ['k'] => some (10 ^ 3)
  | ['M'] => some (10 ^ 6)
  | ['G'] => some (10 ^ 9)
  | ['T'] => some (10 ^ 12)
  | ['P'] => some (10 ^ 15)
  | ['E'] => some (10 ^ 18)
  | _ => none

/-- Modelled from the spec: parse one capacity quantity — leading decimal
digits then an optional magnitude suffix — to its canonical numeric
value. -/
def parseQuantity (l : List Char) : Option Int :=
  let digits := l.takeWhile Char.isDigit
  let suffix := l.dropWhile Char.isDigit
  if digits.isEmpty then none
  else (suffixMultiplier suffix).map fun m => (natOfDigits digits : Int) * m

/-- Split a character list at every comma. -/
def splitOnComma : List Char → List (List Char)
  | [] => [[]]
  | c :: rest =>
    if c = ',' then [] :: splitOnComma rest
    else
      match splitOnComma rest with
      | [] => [[c]]
      | part :: parts => (c :: part) :: parts

/-- Modelled from the spec: one side of the capacity string — an empty
side parses to the zero quantity (§4.1). -/
def parseCapacitySide (l : List Char) : Option Int :=
  if l.isEmpty then some 0 else parseQuantity l

/-- Modelled from the spec: `parseCapacity` (§4.1): the empty string gives
the unconstrained range `(0,0)`; an input with exactly one comma parses
each side as a quantity; an input without the comma separator fails with
a format error naming the input. -/
def parseCapacity (s : String) : Except String capacity :=
  if s = "" then .ok ⟨0, 0⟩
  else
    match splitOnComma s.data with
    | [lo, hi] =>
      match parseCapacitySide lo, parseCapacitySide hi with
      | some l, some h => .ok ⟨l, h⟩
      | _, _ => .error ("unparseable quantity in Capacity " ++ s)
    | _ => .error ("wrong format of Capacity " ++ s)

/-! ### Configuration decoder (§4.4)

The untyped configuration values of the Go `map[string]any` are embedded
as an inductive of the value shapes the decoder distinguishes. -/

/-- Modelled from the spec: an untyped configuration value as seen by the
decoder (§4.4, §6): a scalar, a sequence of strings, one of the two
identity objects, a ready-made string map, or a generic map. -/
inductive AnyValue where
  | str : String → AnyValue
  | int : Int → AnyValue
  | strList : List String → AnyValue
  | csiObj : csiVolumeSource → AnyValue
  | nfsObj : nFSVolumeSource → AnyValue
  | strMap : List (String × String) → AnyValue
  | anyMap : List (String × AnyValue) → AnyValue
deriving Repr

/-- The literal tag and content of an untyped value, used in
type-coercion error messages (§7: errors name the offending literal). -/
def renderAny : AnyValue → String
  | .str s => "!!str `" ++ s ++ "`"
  | .int n => "!!int `" ++ toString n ++ "`"
  | .strList _ => "!!seq"
  | .csiObj _ => "!!map"
  | .nfsObj _ => "!!map"
  | .strMap _ => "!!map"
  | .anyMap _ => "!!map"

/-- Modelled from the spec: the raw decoded condition struct
(ConditionBundle-equivalent, §4.4). -/
structure volumeConditions where
  capacity : String
  storageClass : List String
  nfs : Option nFSVolumeSource
  csi : Option csiVolumeSource
  pvcLabels : Option (List (String × String))
deriving Repr

/-- The empty raw condition struct every decode starts from. -/
def volumeConditions.empty : volumeConditions :=
  { capacity := "", storageClass := [], nfs := none, csi := none, pvcLabels := none }

/-- Modelled from the spec: coercion of a generic map to a string map —
each value must itself be a plain string, otherwise decoding fails naming
the incompatible literal (§4.4). -/
def coerceStrMap : List (String × AnyValue) → Except String (List (String × String))
  | [] => .ok []
  | (k, .str s) :: rest => (coerceStrMap rest).map fun m => (k, s) :: m
  | (_, v) :: _ => .error ("cannot unmarshal " ++ renderAny v ++ " into string")

/-- Modelled from the spec: decoding of one recognized top-level field
(§4.4): the five keys `capacity`, `storageClass`, `csi`, `nfs`,
`pvcLabels` each coerce to their target shape or fail naming the literal
and the shape; an unknown key fails naming the field. -/
def applyField (c : volumeConditions) (k : String) (v : AnyValue) :
    Except String volumeConditions :=
  if k = "capacity" then
    match v with
    | .str s => .ok { c with capacity := s }
    | _ => .error ("cannot unmarshal " ++ renderAny v ++ " into string")
  else if k = "storageClass" then
    match v with
    | .strList l => .ok { c with storageClass := l }
    | _ => .error ("cannot unmarshal " ++ renderAny v ++ " into []string")
  else if k = "csi" then
    match v with
    | .csiObj o => .ok { c with csi := some o }
    | _ => .error ("cannot unmarshal " ++ renderAny v ++ " into resourcepolicies.csiVolumeSource")
  else if k = "nfs" then
    match v with
    | .nfsObj o => .ok { c with nfs := some o }
    | _ => .error ("cannot unmarshal " ++ renderAny v ++ " into resourcepolicies.nFSVolumeSource")
  else if k = "pvcLabels" then
    match v with
    | .strMap m => .ok { c with pvcLabels := some m }
    | .anyMap m => (coerceStrMap m).map fun sm => { c with pvcLabels := some sm }
    | _ => .error ("cannot unmarshal " ++ renderAny v ++ " into map[string]string")
  else .error ("field " ++ k ++ " not found in type resourcepolicies.volumeConditions")

/-- Modelled from the spec: `unmarshalVolConditions` (§4.4) folds the
input mapping through the field table, failing on the first unknown key or
shape-incompatible value. -/
def unmarshalVolConditions (m : List (String × AnyValue)) :
    Except String volumeConditions :=
  m.foldlM (fun c kv => applyField c kv.1 kv.2) volumeConditions.empty

/-- Whether a top-level key belongs to the decoder's recognized set. -/
def recognizedKey (k : String) : Bool :=
  k = "capacity" || k = "storageClass" || k = "csi" || k = "nfs" || k = "pvcLabels"

/-- Whether an untyped value has the shape its (recognized) key expects. -/
def entryOk (k : String) (v : AnyValue) : Bool :=
  if k = "capacity" then
    match v with | .str _ => true | _ => false
  else if k = "storageClass" then
    match v with | .strList _ => true | _ => false
  else if k = "csi" then
    match v with | .csiObj _ => true | _ => false
  else if k = "nfs" then
    match v with | .nfsObj _ => true | _ => false
  else if k = "pvcLabels" then
    match v with
    | .strMap _ => true
    | .anyMap m => m.all fun kv => match kv.2 with | .str _ => true | _ => false
    | _ => false
  else false

/-! ### Volume normalizer (§4.3)

The two source shapes are embedded with the identity fields the spec
names plus the extra fields the Kubernetes objects carry that the
normalizer drops. -/

/-- Modelled from the spec: a pod-scoped volume spec exposing the optional
network-file-share and CSI variants (§6). -/
structure coreNFSVolumeSource where
  Server : String
  Path : String
  ReadOnly : Bool
deriving Repr

/-- Modelled from the spec: the CSI variant of a source volume object. -/
structure coreCSIVolumeSource where
  Driver : String
  VolumeAttributes : List (String × String)
  FSType : Option String
deriving Repr

/-- Modelled from the spec: a pod's inline volume spec (§4.3, first
construction path). -/
structure coreVolume where
  nfs : Option coreNFSVolumeSource
  csi : Option coreCSIVolumeSource
deriving Repr

/-- Modelled from the spec: a persistent-volume spec additionally exposing
declared capacity and storage-class name (§4.3, second path). -/
structure corePersistentVolume where
  capacityStorage : Int
  storageClassName : String
  nfs : Option coreNFSVolumeSource
  csi : Option coreCSIVolumeSource
deriving Repr

/-- Modelled from the spec: `parsePodVolume` (§4.3): copy the identity
fields of whichever backend variant is populated — each backend is
inspected independently, with no mutual-exclusivity check (§9); capacity
and storage class stay at their zero defaults and PVC labels are never
populated from this path. -/
def parsePodVolume (vol : coreVolume) : structuredVolume :=
  { capacity := 0
    storageClass := ""
    nfs := vol.nfs.map fun n => ⟨n.Server, n.Path⟩
    csi := vol.csi.map fun c => ⟨c.Driver, c.VolumeAttributes⟩
    pvcLabels := none }

/-- Modelled from the spec: `parsePV` (§4.3): capacity from the declared
storage resource, storage class from the spec's storage-class-name, and
the backend identities copied analogously, each inspected independently. -/
def parsePV (pv : corePersistentVolume) : structuredVolume :=
  { capacity := pv.capacityStorage
    storageClass := pv.storageClassName
    nfs := pv.nfs.map fun n => ⟨n.Server, n.Path⟩
    csi := pv.csi.map fun c => ⟨c.Driver, c.VolumeAttributes⟩
    pvcLabels := none }

/-! ### Helper lemmas -/

theorem splitOnComma_eq_single {l : List Char} (h : ',' ∉ l) : splitOnComma l = [l] := by
  induction l with
  | nil => rfl
  | cons c rest ih =>
    have hc : ¬ c = ',' := fun hc => h (hc ▸ List.mem_cons_self c rest)
    have hr : ',' ∉ rest := fun hm => h (List.mem_cons_of_mem c hm)
    simp [splitOnComma, hc, ih hr]

theorem splitOnComma_append {a : List Char} (b : List Char) (h : ',' ∉ a) :
    splitOnComma (a ++ ',' :: b) = a :: splitOnComma b := by
  induction a with
  | nil => simp [splitOnComma]
  | cons c rest ih =>
    have hc : ¬ c = ',' := fun hc => h (hc ▸ List.mem_cons_self c rest)
    have hr : ',' ∉ rest := fun hm => h (List.mem_cons_of_mem c hm)
    simp [splitOnComma, hc, ih hr]

theorem splitOnComma_pair {a b : List Char} (ha : ',' ∉ a) (hb : ',' ∉ b) :
    splitOnComma (a ++ ',' :: b) = [a, b] := by
  rw [splitOnComma_append b ha, splitOnComma_eq_single hb]

theorem stringMk_cons_ne_empty {l : List Char} (h : l ≠ []) : String.mk l ≠ "" := by
  intro he
  exact h (by simpa using congrArg String.data he)

theorem parseCapacity_no_comma (s : String) (h0 : s ≠ "") (h : ',' ∉ s.data) :
    parseCapacity s = .error ("wrong format of Capacity " ++ s) := by
  unfold parseCapacity
  rw [if_neg h0, splitOnComma_eq_single h]

theorem parseCapacity_one_comma (a b : List Char) (la lb : Int)
    (ha : ',' ∉ a) (hb : ',' ∉ b)
    (hla : parseCapacitySide a = some la) (hlb : parseCapacitySide b = some lb) :
    parseCapacity (String.mk (a ++ ',' :: b)) = .ok ⟨la, lb⟩ := by
  have hne : String.mk (a ++ ',' :: b) ≠ "" := stringMk_cons_ne_empty (by simp)
  unfold parseCapacity
  rw [if_neg hne]
  rw [show (String.mk (a ++ ',' :: b)).data = a ++ ',' :: b from rfl]
  rw [splitOnComma_pair ha hb]
  split
  next lo hi heq =>
    obtain ⟨h1, h2⟩ : a = lo ∧ b = hi := by
      injection heq with e1 e2
      injection e2 with e3 e4
      exact ⟨e1, e3⟩
    subst h1; subst h2
    rw [hla, hlb]
  next h =>
    simp at h

/-! ### Claim theorems -/

/-- C2: `parseCapacity` returns, with no error, the unconstrained range
`{0,0}` for the empty string; for an input with exactly one comma it
parses each side as a capacity quantity, an empty side parsing to the
zero quantity (`"10Gi,20Gi"` gives lower `10Gi` and upper `20Gi`, and
`"10Gi,"` gives lower `10Gi` and upper `0`); and every non-empty input
with zero commas fails with a format error naming the offending input. -/
theorem parseCapacity_spec :
    parseCapacity "" = .ok ⟨0, 0⟩ ∧
    parseCapacity "10Gi,20Gi" = .ok ⟨10 * 2 ^ 30, 20 * 2 ^ 30⟩ ∧
    parseCapacity "10Gi," = .ok ⟨10 * 2 ^ 30, 0⟩ ∧
    parseCapacitySide [] = some 0 ∧
    (∀ (a b : List Char) (la lb : Int), ',' ∉ a → ',' ∉ b →
      parseCapacitySide a = some la → parseCapacitySide b = some lb →
      parseCapacity (String.mk (a ++ ',' :: b)) = .ok ⟨la, lb⟩) ∧
    (∀ s : String, s ≠ "" → ',' ∉ s.data →
      parseCapacity s = .error ("wrong format of Capacity " ++ s)) := by
  refine ⟨rfl, rfl, rfl, rfl, ?_, ?_⟩
  · intro a b la lb ha hb hla hlb
    exact parseCapacity_one_comma a b la lb ha hb hla hlb
  · intro s h0 h
    exact parseCapacity_no_comma s h0 h

/-- Witness for C2 at the concrete inputs `"10Gi"` and `"1Gi" , "2Gi"`. -/
theorem parseCapacity_spec_witness :
    parseCapacity "10Gi" = .error "wrong format of Capacity 10Gi" ∧
    parseCapacity (String.mk ("1Gi".data ++ ',' :: "2Gi".data)) = .ok ⟨2 ^ 30, 2 * 2 ^ 30⟩ := by
  constructor
  · exact parseCapacity_spec.2.2.2.2.2 "10Gi" (by decide) (by decide)
  · exact parseCapacity_spec.2.2.2.2.1 "1Gi".data "2Gi".data (2 ^ 30) (2 * 2 ^ 30)
      (by decide) (by decide) (by decide) (by decide)

/-- C1: each structurally absent predicate — nil nfs condition, nil csi
condition, empty storage-class allow-list, empty pvc-label map, and the
unconstrained `(0,0)` capacity range — matches any normalized volume; the
bundle verdict is the logical AND of its member predicates, and the bundle
with every predicate unset matches every volume. -/
theorem unset_predicates_wildcard_bundle_conjunction :
    ∀ (v : structuredVolume) (b : conditionBundle),
      nfsCondition.matches ⟨none⟩ v = true ∧
      csiCondition.matches ⟨none⟩ v = true ∧
      storageClassCondition.matches ⟨[]⟩ v = true ∧
      pvcLabelsCondition.matches ⟨[]⟩ v = true ∧
      capacityCondition.matches ⟨⟨0, 0⟩⟩ v = true ∧
      conditionBundle.matches b v =
        (capacityCondition.matches ⟨b.capacity⟩ v &&
          storageClassCondition.matches ⟨b.storageClass⟩ v &&
          nfsCondition.matches ⟨b.nfs⟩ v &&
          csiCondition.matches ⟨b.csi⟩ v &&
          pvcLabelsCondition.matches ⟨b.pvcLabels⟩ v) ∧
      conditionBundle.matches emptyBundle v = true := by
  intro v b
  refine ⟨rfl, rfl, rfl, rfl, ?_, rfl, ?_⟩
  · simp [capacityCondition.matches, capacity.isInRange]
  · simp [conditionBundle.matches, emptyBundle, capacityCondition.matches, capacity.isInRange,
      storageClassCondition.matches, nfsCondition.matches, csiCondition.matches,
      pvcLabelsCondition.matches]

/-- C3: `isInRange` is true on the unconstrained range; with an open upper
bound it is true iff `q ≥ lower`; otherwise true iff `lower ≤ q ≤ upper`
inclusive; and the verdict depends only on the quantity's canonical
numeric value, so notations of equal value are interchangeable. -/
theorem isInRange_spec :
    ∀ (c : capacity) (q : Int),
      (c.lower = 0 → c.upper = 0 → c.isInRange q = true) ∧
      (c.upper = 0 → c.lower ≠ 0 → (c.isInRange q = true ↔ c.lower ≤ q)) ∧
      (c.upper ≠ 0 → (c.isInRange q = true ↔ c.lower ≤ q ∧ q ≤ c.upper)) ∧
      (∀ (s₁ s₂ : List Char) (q₁ q₂ : Int), parseQuantity s₁ = some q₁ →
        parseQuantity s₂ = some q₂ → q₁ = q₂ → c.isInRange q₁ = c.isInRange q₂) := by
  intro c q
  refine ⟨?_, ?_, ?_, ?_⟩
  · intro h1 h2; simp [capacity.isInRange, h1, h2]
  · intro h1 h2; simp [capacity.isInRange, h1, h2]
  · intro h1; simp [capacity.isInRange, h1]
  · intro s₁ s₂ q₁ q₂ h₁ h₂ he; rw [he]

/-- Witness for C3 at concrete ranges and quantities, including the pair
`1Gi` / `1024Mi` written with different suffixes. -/
theorem isInRange_spec_witness :
    capacity.isInRange ⟨0, 0⟩ (5 * 2 ^ 30) = true ∧
    capacity.isInRange ⟨20 * 2 ^ 30, 0⟩ (25 * 2 ^ 30) = true ∧
    capacity.isInRange ⟨10 * 2 ^ 30, 20 * 2 ^ 30⟩ (5 * 2 ^ 30) = false ∧
    capacity.isInRange ⟨2 ^ 30, 0⟩ (2 ^ 30) = capacity.isInRange ⟨2 ^ 30, 0⟩ (1024 * 2 ^ 20) := by
  refine ⟨?_, ?_, ?_, ?_⟩
  · exact (isInRange_spec ⟨0, 0⟩ (5 * 2 ^ 30)).1 rfl rfl
  · exact ((isInRange_spec ⟨20 * 2 ^ 30, 0⟩ (25 * 2 ^ 30)).2.1 rfl (by decide)).mpr (by decide)
  · exact Bool.eq_false_iff.mpr fun ht =>
      absurd (((isInRange_spec ⟨10 * 2 ^ 30, 20 * 2 ^ 30⟩ (5 * 2 ^ 30)).2.2.1 (by decide)).mp ht)
        (by decide)
  · exact (isInRange_spec ⟨2 ^ 30, 0⟩ 0).2.2.2 "1Gi".data "1024Mi".data (2 ^ 30) (1024 * 2 ^ 20)
      (by decide) (by decide) (by decide)

theorem subsetMatch_eq_true_iff (cond cand : List (String × String)) :
    subsetMatch cond cand = true ↔ ∀ kv ∈ cond, mapLookup cand kv.1 = some kv.2 := by
  simp [subsetMatch, List.all_eq_true]

theorem mapLookup_cons_ne {k key : String} (h : ¬ k = key) (val : String)
    (m : List (String × String)) : mapLookup ((k, val) :: m) key = mapLookup m key := by
  simp [mapLookup, h]

theorem subsetMatch_cons_unrelated {cond : List (String × String)} {k : String}
    (val : String) (cand : List (String × String)) (h : ∀ kv ∈ cond, kv.1 ≠ k) :
    subsetMatch cond ((k, val) :: cand) = subsetMatch cond cand := by
  rw [Bool.eq_iff_iff, subsetMatch_eq_true_iff, subsetMatch_eq_true_iff]
  constructor
  · intro hh kv hm
    have := hh kv hm
    rwa [mapLookup_cons_ne (fun he => (h kv hm) he.symm)] at this
  · intro hh kv hm
    rw [mapLookup_cons_ne (fun he => (h kv hm) he.symm)]
    exact hh kv hm

theorem nfsCondition_matches_some {c : nfsCondition} {cn vn : nFSVolumeSource}
    {v : structuredVolume} (hc : c.nfs = some cn) (hv : v.nfs = some vn) :
    c.matches v =
      (decide (cn.Server = "" ∨ cn.Server = vn.Server) &&
        decide (cn.Path = "" ∨ cn.Path = vn.Path)) := by
  simp only [nfsCondition.matches, hc, hv]
  by_cases h1 : cn.Server = "" <;> by_cases h2 : cn.Server = vn.Server <;>
    by_cases h3 : cn.Path = "" <;> by_cases h4 : cn.Path = vn.Path <;>
    simp [h1, h2, h3, h4]

theorem csiCondition_matches_some {c : csiCondition} {cc vc : csiVolumeSource}
    {v : structuredVolume} (hc : c.csi = some cc) (hv : v.csi = some vc) :
    c.matches v =
      (decide (cc.Driver = "" ∨ cc.Driver = vc.Driver) &&
        subsetMatch cc.VolumeAttributes vc.VolumeAttributes) := by
  simp only [csiCondition.matches, hc, hv]
  by_cases h1 : cc.Driver = "" <;> by_cases h2 : cc.Driver = vc.Driver <;> simp [h1, h2]

/-- C4: the storage-class predicate with an empty allow-list matches every
volume, including one whose storage class is empty; with a non-empty
allow-list it matches iff the volume's storage class is a non-empty string
present in the list. -/
theorem storageClass_matches_spec :
    ∀ (c : storageClassCondition) (v : structuredVolume),
      (c.storageClass = [] → c.matches v = true) ∧
      (c.storageClass ≠ [] →
        (c.matches v = true ↔ v.storageClass ≠ "" ∧ v.storageClass ∈ c.storageClass)) := by
  intro c v
  obtain ⟨scs⟩ := c
  cases scs with
  | nil => exact ⟨fun _ => rfl, fun h => absurd rfl h⟩
  | cons s rest =>
    refine ⟨fun h => by simp at h, fun _ => ?_⟩
    by_cases hv : v.storageClass = "" <;>
      simp [storageClassCondition.matches, hv]

/-- Witness for C4: the empty allow-list against an arbitrary class, a
two-element allow-list hit, and a miss on an empty volume storage class. -/
theorem storageClass_matches_spec_witness :
    storageClassCondition.matches ⟨[]⟩ ⟨0, "ebs-sc", none, none, none⟩ = true ∧
    storageClassCondition.matches ⟨["gp2", "ebs-sc"]⟩ ⟨0, "gp2", none, none, none⟩ = true ∧
    storageClassCondition.matches ⟨["gp2"]⟩ ⟨0, "", none, none, none⟩ = false := by
  refine ⟨?_, ?_, ?_⟩
  · exact (storageClass_matches_spec ⟨[]⟩ ⟨0, "ebs-sc", none, none, none⟩).1 rfl
  · exact ((storageClass_matches_spec ⟨["gp2", "ebs-sc"]⟩ ⟨0, "gp2", none, none, none⟩).2
      (by decide)).mpr (by decide)
  · exact Bool.eq_false_iff.mpr fun ht =>
      absurd (((storageClass_matches_spec ⟨["gp2"]⟩ ⟨0, "", none, none, none⟩).2
        (by decide)).mp ht) (by decide)

/-- C5: a nil nfs condition matches every volume; a non-nil condition
matches iff the volume carries an nfs identity and each of server and path
is either empty in the condition (field-level wildcard) or exactly equal
to the volume's field; a volume without an nfs identity never matches a
non-nil condition, and a condition specifying only a path matches any nfs
volume with that path regardless of server. -/
theorem nfs_matches_spec :
    ∀ (c : nfsCondition) (v : structuredVolume),
      (c.nfs = none → c.matches v = true) ∧
      (∀ cn, c.nfs = some cn →
        (c.matches v = true ↔ ∃ vn, v.nfs = some vn ∧
          (cn.Server = "" ∨ cn.Server = vn.Server) ∧ (cn.Path = "" ∨ cn.Path = vn.Path))) ∧
      (∀ cn, c.nfs = some cn → v.nfs = none → c.matches v = false) ∧
      (∀ p vn, v.nfs = some vn → vn.Path = p →
        nfsCondition.matches ⟨some ⟨"", p⟩⟩ v = true) := by
  intro c v
  refine ⟨?_, ?_, ?_, ?_⟩
  · intro h; simp [nfsCondition.matches, h]
  · intro cn hcn
    cases hv : v.nfs with
    | none => simp [nfsCondition.matches, hcn, hv]
    | some vn =>
      rw [nfsCondition_matches_some hcn hv]
      simp [hv]
  · intro cn hcn hv; simp [nfsCondition.matches, hcn, hv]
  · intro p vn hv hp
    rw [nfsCondition_matches_some rfl hv]
    simp [hp]

/-- Witness for C5: a server-only hit, a path-only wildcard hit, and a
condition failing on a volume with no nfs identity. -/
theorem nfs_matches_spec_witness :
    nfsCondition.matches ⟨none⟩ ⟨0, "", none, none, none⟩ = true ∧
    nfsCondition.matches ⟨some ⟨"192.168.10.20", ""⟩⟩
      ⟨0, "", some ⟨"192.168.10.20", "/x"⟩, none, none⟩ = true ∧
    nfsCondition.matches ⟨some ⟨"192.168.10.20", ""⟩⟩ ⟨0, "", none, none, none⟩ = false ∧
    nfsCondition.matches ⟨some ⟨"", "/mnt/data"⟩⟩
      ⟨0, "", some ⟨"192.168.10.20", "/mnt/data"⟩, none, none⟩ = true := by
  refine ⟨?_, ?_, ?_, ?_⟩
  · exact (nfs_matches_spec ⟨none⟩ ⟨0, "", none, none, none⟩).1 rfl
  · exact ((nfs_matches_spec ⟨some ⟨"192.168.10.20", ""⟩⟩
      ⟨0, "", some ⟨"192.168.10.20", "/x"⟩, none, none⟩).2.1 ⟨"192.168.10.20", ""⟩ rfl).mpr
      ⟨⟨"192.168.10.20", "/x"⟩, rfl, Or.inr rfl, Or.inl rfl⟩
  · exact (nfs_matches_spec ⟨some ⟨"192.168.10.20", ""⟩⟩
      ⟨0, "", none, none, none⟩).2.2.1 ⟨"192.168.10.20", ""⟩ rfl rfl
  · exact (nfs_matches_spec ⟨some ⟨"", "/mnt/data"⟩⟩
      ⟨0, "", some ⟨"192.168.10.20", "/mnt/data"⟩, none, none⟩).2.2.2 "/mnt/data"
      ⟨"192.168.10.20", "/mnt/data"⟩ rfl rfl

/-- C6: a nil csi condition matches every volume; a non-nil condition
matches iff the volume carries a csi identity, a non-empty condition
driver equals the volume's driver exactly, and every condition attribute
pair appears identically in the volume's attribute map (extra volume keys
ignored); an empty condition attribute map is a wildcard. -/
theorem csi_matches_spec :
    ∀ (c : csiCondition) (v : structuredVolume),
      (c.csi = none → c.matches v = true) ∧
      (∀ cc, c.csi = some cc →
        (c.matches v = true ↔ ∃ vc, v.csi = some vc ∧
          (cc.Driver = "" ∨ cc.Driver = vc.Driver) ∧
          ∀ kv ∈ cc.VolumeAttributes, mapLookup vc.VolumeAttributes kv.1 = some kv.2)) ∧
      (∀ cc, c.csi = some cc → v.csi = none → c.matches v = false) ∧
      (∀ cc vc, c.csi = some cc → v.csi = some vc → cc.VolumeAttributes = [] →
        (cc.Driver = "" ∨ cc.Driver = vc.Driver) → c.matches v = true) := by
  intro c v
  refine ⟨?_, ?_, ?_, ?_⟩
  · intro h; simp [csiCondition.matches, h]
  · intro cc hcc
    cases hv : v.csi with
    | none => simp [csiCondition.matches, hcc, hv]
    | some vc =>
      rw [csiCondition_matches_some hcc hv]
      simp [hv, subsetMatch_eq_true_iff]
  · intro cc hcc hv; simp [csiCondition.matches, hcc, hv]
  · intro cc vc hcc hv hattr hdrv
    rw [csiCondition_matches_some hcc hv]
    simp [hattr, subsetMatch, hdrv]

/-- Witness for C6: the attribute subset hit with an extra volume key, the
rejection when the volume's attribute value differs, and the rejection on
a volume with no csi identity. -/
theorem csi_matches_spec_witness :
    csiCondition.matches ⟨some ⟨"test", [("protocol", "nfs")]⟩⟩
      ⟨0, "", none, some ⟨"test", [("protocol", "nfs"), ("extra", "x")]⟩, none⟩ = true ∧
    csiCondition.matches ⟨some ⟨"test", [("protocol", "nfs")]⟩⟩
      ⟨0, "", none, some ⟨"test", [("protocol", "")]⟩, none⟩ = false ∧
    csiCondition.matches ⟨some ⟨"test", []⟩⟩ ⟨0, "", none, none, none⟩ = false ∧
    csiCondition.matches ⟨some ⟨"test", []⟩⟩
      ⟨0, "", none, some ⟨"test", [("protocol", "nfs")]⟩, none⟩ = true := by
  refine ⟨?_, ?_, ?_, ?_⟩
  · exact ((csi_matches_spec ⟨some ⟨"test", [("protocol", "nfs")]⟩⟩
      ⟨0, "", none, some ⟨"test", [("protocol", "nfs"), ("extra", "x")]⟩, none⟩).2.1
      ⟨"test", [("protocol", "nfs")]⟩ rfl).mpr
      ⟨⟨"test", [("protocol", "nfs"), ("extra", "x")]⟩, rfl, Or.inr rfl, by decide⟩
  · exact Bool.eq_false_iff.mpr fun ht => by
      have h := ((csi_matches_spec ⟨some ⟨"test", [("protocol", "nfs")]⟩⟩
        ⟨0, "", none, some ⟨"test", [("protocol", "")]⟩, none⟩).2.1
        ⟨"test", [("protocol", "nfs")]⟩ rfl).mp ht
      obtain ⟨vc, hvc, -, hsub⟩ := h
      have := hsub ("protocol", "nfs") (by decide)
      rw [show vc = ⟨"test", [("protocol", "")]⟩ from by simpa using hvc.symm] at this
      simp [mapLookup] at this
  · exact (csi_matches_spec ⟨some ⟨"test", []⟩⟩ ⟨0, "", none, none, none⟩).2.2.1
      ⟨"test", []⟩ rfl rfl
  · exact (csi_matches_spec ⟨some ⟨"test", []⟩⟩
      ⟨0, "", none, some ⟨"test", [("protocol", "nfs")]⟩, none⟩).2.2.2
      ⟨"test", []⟩ ⟨"test", [("protocol", "nfs")]⟩ rfl rfl rfl (Or.inr rfl)

/-- C7: the pvc-label predicate with an empty condition map matches every
volume; with a non-empty condition map it matches iff every condition
key/value pair appears identically in the volume's label map; adding a key
unrelated to the condition to the volume's label map never changes the
verdict; and a nil volume label map fails every non-empty condition while
matching an empty one. -/
theorem pvcLabels_matches_spec :
    ∀ (c : pvcLabelsCondition) (v : structuredVolume),
      (c.labels = [] → c.matches v = true) ∧
      (c.labels ≠ [] →
        (c.matches v = true ↔ ∃ m, v.pvcLabels = some m ∧
          ∀ kv ∈ c.labels, mapLookup m kv.1 = some kv.2)) ∧
      (c.labels ≠ [] → v.pvcLabels = none → c.matches v = false) ∧
      (∀ m k val, v.pvcLabels = some m → (∀ kv ∈ c.labels, kv.1 ≠ k) →
        pvcLabelsCondition.matches c { v with pvcLabels := some ((k, val) :: m) } =
          c.matches v) := by
  intro c v
  obtain ⟨ls⟩ := c
  refine ⟨?_, ?_, ?_, ?_⟩
  · intro h
    subst h
    rfl
  · intro hne
    cases ls with
    | nil => exact absurd rfl hne
    | cons kv rest =>
      cases hv : v.pvcLabels with
      | none => simp [pvcLabelsCondition.matches, hv]
      | some m => simp [pvcLabelsCondition.matches, hv, subsetMatch_eq_true_iff]
  · intro hne hv
    cases ls with
    | nil => exact absurd rfl hne
    | cons kv rest => simp [pvcLabelsCondition.matches, hv]
  · intro m k val hv hk
    cases ls with
    | nil => rfl
    | cons kv rest =>
      simp only [pvcLabelsCondition.matches, hv]
      exact subsetMatch_cons_unrelated val m hk

/-- Witness for C7: the single-label hit on a larger volume map, the
unrelated-key stability at a concrete volume, and the nil-map rejection. -/
theorem pvcLabels_matches_spec_witness :
    pvcLabelsCondition.matches ⟨[]⟩ ⟨0, "any", none, none, none⟩ = true ∧
    pvcLabelsCondition.matches ⟨[("environment", "production")]⟩
      ⟨0, "any", none, none,
        some [("environment", "production"), ("app", "database")]⟩ = true ∧
    pvcLabelsCondition.matches ⟨[("environment", "production")]⟩
      ⟨0, "any", none, none, none⟩ = false ∧
    pvcLabelsCondition.matches ⟨[("environment", "production")]⟩
      ⟨0, "any", none, none, some [("app", "db"), ("environment", "production")]⟩ =
      pvcLabelsCondition.matches ⟨[("environment", "production")]⟩
        ⟨0, "any", none, none, some [("environment", "production")]⟩ := by
  refine ⟨?_, ?_, ?_, ?_⟩
  · exact (pvcLabels_matches_spec ⟨[]⟩ ⟨0, "any", none, none, none⟩).1 rfl
  · exact ((pvcLabels_matches_spec ⟨[("environment", "production")]⟩
      ⟨0, "any", none, none,
        some [("environment", "production"), ("app", "database")]⟩).2.1 (by decide)).mpr
      ⟨[("environment", "production"), ("app", "database")], rfl, by decide⟩
  · exact (pvcLabels_matches_spec ⟨[("environment", "production")]⟩
      ⟨0, "any", none, none, none⟩).2.2.1 (by decide) rfl
  · exact (pvcLabels_matches_spec ⟨[("environment", "production")]⟩
      ⟨0, "any", none, none, some [("environment", "production")]⟩).2.2.2
      [("environment", "production")] "app" "db" rfl (by decide)

theorem exceptIsOk_map {e : Except String (List (String × String))}
    {f : List (String × String) → volumeConditions} : (e.map f).isOk = e.isOk := by
  cases e <;> rfl

theorem coerceStrMap_isOk (m : List (String × AnyValue)) :
    (coerceStrMap m).isOk =
      m.all fun kv => match kv.2 with | .str _ => true | _ => false := by
  induction m with
  | nil => rfl
  | cons kv rest ih =>
    obtain ⟨k, v⟩ := kv
    cases v <;> simp [coerceStrMap, Except.isOk, List.all_cons, ← ih] <;>
      cases h : coerceStrMap rest <;> simp [Except.map, Except.isOk, Except.toBool]

theorem applyField_isOk (c : volumeConditions) (k : String) (v : AnyValue) :
    (applyField c k v).isOk = entryOk k v := by
  unfold applyField entryOk
  split_ifs <;> cases v
  all_goals try simp [Except.isOk, Except.map, coerceStrMap_isOk, exceptIsOk_map, Except.toBool]
  all_goals rename_i m
  all_goals rw [← coerceStrMap_isOk m]
  all_goals cases hcm : coerceStrMap m <;> simp [hcm, Except.isOk, Except.toBool]

theorem foldl_applyField_isOk (m : List (String × AnyValue)) :
    ∀ c : volumeConditions,
      ((m.foldlM (fun c kv => applyField c kv.1 kv.2) c : Except String volumeConditions)).isOk =
        m.all fun kv => entryOk kv.1 kv.2 := by
  induction m with
  | nil => intro c; rfl
  | cons kv rest ih =>
    intro c
    rw [List.foldlM_cons]
    cases h : applyField c kv.1 kv.2 with
    | error e =>
      have he : entryOk kv.1 kv.2 = false := by
        rw [← applyField_isOk c kv.1 kv.2, h]; rfl
      simp only [h, List.all_cons, he, Bool.false_and]
      show (Except.bind (Except.error e) _).isOk = false
      rfl
    | ok c' =>
      have he : entryOk kv.1 kv.2 = true := by
        rw [← applyField_isOk c kv.1 kv.2, h]; rfl
      simp only [h, List.all_cons, he, Bool.true_and]
      show (Except.bind (Except.ok c') _).isOk = _
      simp only [Except.bind]
      exact ih c'

theorem entryOk_recognized {k : String} {v : AnyValue} (h : entryOk k v = true) :
    recognizedKey k = true := by
  unfold entryOk at h
  unfold recognizedKey
  split_ifs at h with h1 h2 h3 h4 h5
  · simp [h1]
  · simp [h2]
  · simp [h3]
  · simp [h4]
  · simp [h5]

theorem unmarshal_isOk_iff (m : List (String × AnyValue)) :
    (unmarshalVolConditions m).isOk = true ↔
      ∀ kv ∈ m, recognizedKey kv.1 = true ∧ entryOk kv.1 kv.2 = true := by
  rw [unmarshalVolConditions, foldl_applyField_isOk, List.all_eq_true]
  constructor
  · intro h kv hm
    exact ⟨entryOk_recognized (h kv hm), h kv hm⟩
  · intro h kv hm
    exact (h kv hm).2

theorem unmarshal_singleton (k : String) (v : AnyValue) :
    unmarshalVolConditions [(k, v)] = applyField volumeConditions.empty k v := by
  show applyField volumeConditions.empty k v >>= _ = _
  cases h : applyField volumeConditions.empty k v with
  | error e => rfl
  | ok c => rfl

theorem applyField_unknown (c : volumeConditions) (k : String) (v : AnyValue)
    (h : recognizedKey k = false) :
    applyField c k v =
      .error ("field " ++ k ++ " not found in type resourcepolicies.volumeConditions") := by
  have n1 : ¬ k = "capacity" := fun he => by subst he; simp [recognizedKey] at h
  have n2 : ¬ k = "storageClass" := fun he => by subst he; simp [recognizedKey] at h
  have n3 : ¬ k = "csi" := fun he => by subst he; simp [recognizedKey] at h
  have n4 : ¬ k = "nfs" := fun he => by subst he; simp [recognizedKey] at h
  have n5 : ¬ k = "pvcLabels" := fun he => by subst he; simp [recognizedKey] at h
  unfold applyField
  rw [if_neg n1, if_neg n2, if_neg n3, if_neg n4, if_neg n5]

/-- C8: `unmarshalVolConditions` succeeds iff every key of the input
mapping lies in the recognized set and carries a shape-compatible value;
an unknown key fails with an error naming the field, a shape-incompatible
value fails with an error carrying the offending literal and the target
shape, and `pvcLabels` accepts both a ready-made string map and a generic
map of string values while a non-mapping value fails naming the literal. -/
theorem unmarshalVolConditions_spec :
    (∀ m : List (String × AnyValue),
      ((unmarshalVolConditions m).isOk = true ↔
        ∀ kv ∈ m, recognizedKey kv.1 = true ∧ entryOk kv.1 kv.2 = true)) ∧
    (∀ (k : String) (v : AnyValue), recognizedKey k = false →
      unmarshalVolConditions [(k, v)] =
        .error ("field " ++ k ++ " not found in type resourcepolicies.volumeConditions")) ∧
    (∀ s : String, unmarshalVolConditions [("storageClass", AnyValue.str s)] =
      .error ("cannot unmarshal !!str `" ++ s ++ "` into []string")) ∧
    (∀ s : String, unmarshalVolConditions [("csi", AnyValue.str s)] =
      .error ("cannot unmarshal !!str `" ++ s ++ "` into resourcepolicies.csiVolumeSource")) ∧
    (∀ s : String, unmarshalVolConditions [("pvcLabels", AnyValue.str s)] =
      .error ("cannot unmarshal !!str `" ++ s ++ "` into map[string]string")) ∧
    (∀ sm : List (String × String), unmarshalVolConditions [("pvcLabels", AnyValue.strMap sm)] =
      .ok { volumeConditions.empty with pvcLabels := some sm }) ∧
    (∀ (am : List (String × AnyValue)) (sm : List (String × String)),
      coerceStrMap am = .ok sm →
      unmarshalVolConditions [("pvcLabels", AnyValue.anyMap am)] =
        .ok { volumeConditions.empty with pvcLabels := some sm }) := by
  refine ⟨unmarshal_isOk_iff, ?_, ?_, ?_, ?_, ?_, ?_⟩
  · intro k v h
    rw [unmarshal_singleton]
    exact applyField_unknown volumeConditions.empty k v h
  · intro s
    rw [unmarshal_singleton]
    simp [applyField, renderAny, String.append_assoc]
    rw [← String.append_assoc]
    rfl
  · intro s
    rw [unmarshal_singleton]
    simp [applyField, renderAny, String.append_assoc]
    rw [← String.append_assoc]
    rfl
  · intro s
    rw [unmarshal_singleton]
    simp [applyField, renderAny, String.append_assoc]
    rw [← String.append_assoc]
    rfl
  · intro sm
    rw [unmarshal_singleton]
    rfl
  · intro am sm h
    rw [unmarshal_singleton]
    show (coerceStrMap am).map _ = _
    rw [h]
    rfl

/-- Witness for C8: a fully valid mapping decodes, the unknown field
`unknown` is named in its error, and a generic `pvcLabels` map of string
values is coerced. -/
theorem unmarshalVolConditions_spec_witness :
    (unmarshalVolConditions [("capacity", AnyValue.str "1Gi,10Gi"),
      ("storageClass", AnyValue.strList ["gp2", "ebs-sc"]),
      ("csi", AnyValue.csiObj ⟨"aws.efs.csi.driver", []⟩)]).isOk = true ∧
    unmarshalVolConditions [("unknown", AnyValue.str "foo")] =
      .error "field unknown not found in type resourcepolicies.volumeConditions" ∧
    unmarshalVolConditions [("pvcLabels", AnyValue.anyMap [("environment", AnyValue.str "production")])] =
      .ok { volumeConditions.empty with pvcLabels := some [("environment", "production")] } := by
  refine ⟨?_, ?_, ?_⟩
  · exact (unmarshalVolConditions_spec.1 _).mpr (by decide)
  · exact unmarshalVolConditions_spec.2.1 "unknown" (AnyValue.str "foo") (by decide)
  · exact unmarshalVolConditions_spec.2.2.2.2.2.2
      [("environment", AnyValue.str "production")] [("environment", "production")] rfl

/-- C10: top-level key recognition is exact and case-sensitive: a mapping
binding the capitalized key `Capacity` to any value is rejected with an
unknown-field error naming `Capacity`, although the lowercase `capacity`
is recognized. -/
theorem unknown_field_case_sensitive_spec :
    ∀ (vv : AnyValue) (m : List (String × AnyValue)),
      unmarshalVolConditions [("Capacity", vv)] =
        .error ("field Capacity not found in type resourcepolicies.volumeConditions") ∧
      (("Capacity", vv) ∈ m → ∃ e, unmarshalVolConditions m = .error e) ∧
      recognizedKey "capacity" = true ∧
      recognizedKey "Capacity" = false := by
  intro vv m
  refine ⟨?_, ?_, by decide, by decide⟩
  · rw [unmarshal_singleton]
    exact applyField_unknown volumeConditions.empty "Capacity" vv (by decide)
  · intro hm
    have hnot : ¬ ((unmarshalVolConditions m).isOk = true) := by
      rw [unmarshal_isOk_iff]
      intro h
      exact absurd (h ("Capacity", vv) hm).1
        (show ¬ recognizedKey "Capacity" = true by decide)
    cases he : unmarshalVolConditions m with
    | ok c => exact absurd (by rw [he]; rfl) hnot
    | error e => exact ⟨e, rfl⟩

/-- Witness for C10 at the concrete value `"1Gi,10Gi"`. -/
theorem unknown_field_case_sensitive_spec_witness :
    ∃ e, unmarshalVolConditions [("Capacity", AnyValue.str "1Gi,10Gi")] = .error e :=
  (unknown_field_case_sensitive_spec (AnyValue.str "1Gi,10Gi")
    [("Capacity", AnyValue.str "1Gi,10Gi")]).2.1 (List.Mem.head _)

/-- C9 counterexample: the normalizer copies each backend independently,
so a pod volume spec populating both backends yields a normalized volume
with both identities populated — refuting, at this input, the claim that
at most one identity is ever populated. -/
theorem parse_backend_exclusivity_counterexample :
    ¬ ((parsePodVolume ⟨some ⟨"nfs.example.com", "/exports/data", false⟩,
          some ⟨"csi.example.com", [("protocol", "nfs")], none⟩⟩).nfs = none ∨
       (parsePodVolume ⟨some ⟨"nfs.example.com", "/exports/data", false⟩,
          some ⟨"csi.example.com", [("protocol", "nfs")], none⟩⟩).csi = none) := by
  decide

/-- C9 amended: for every source object populating at most one backend —
the case the spec calls mutually exclusive in practice — at most one
identity is populated on the normalized volume, and when the source
specifies neither backend both identity fields remain nil; the copy of
each backend is independent, with no mutual-exclusivity check. -/
theorem parse_backend_identity_amended :
    ∀ (vol : coreVolume) (pv : corePersistentVolume),
      (vol.nfs = none ∨ vol.csi = none →
        (parsePodVolume vol).nfs = none ∨ (parsePodVolume vol).csi = none) ∧
      (vol.nfs = none → vol.csi = none →
        (parsePodVolume vol).nfs = none ∧ (parsePodVolume vol).csi = none) ∧
      (pv.nfs = none ∨ pv.csi = none →
        (parsePV pv).nfs = none ∨ (parsePV pv).csi = none) ∧
      (pv.nfs = none → pv.csi = none →
        (parsePV pv).nfs = none ∧ (parsePV pv).csi = none) := by
  intro vol pv
  refine ⟨?_, ?_, ?_, ?_⟩
  · intro h
    cases h with
    | inl h => exact Or.inl (by simp [parsePodVolume, h])
    | inr h => exact Or.inr (by simp [parsePodVolume, h])
  · intro h1 h2
    exact ⟨by simp [parsePodVolume, h1], by simp [parsePodVolume, h2]⟩
  · intro h
    cases h with
    | inl h => exact Or.inl (by simp [parsePV, h])
    | inr h => exact Or.inr (by simp [parsePV, h])
  · intro h1 h2
    exact ⟨by simp [parsePV, h1], by simp [parsePV, h2]⟩

/-- Witness for C9 (amended) at the empty pod volume and the empty
persistent volume. -/
theorem parse_backend_identity_amended_witness :
    ((parsePodVolume ⟨none, none⟩).nfs = none ∧ (parsePodVolume ⟨none, none⟩).csi = none) ∧
    ((parsePV ⟨0, "", none, none⟩).nfs = none ∧ (parsePV ⟨0, "", none, none⟩).csi = none) :=
  ⟨(parse_backend_identity_amended ⟨none, none⟩ ⟨0, "", none, none⟩).2.1 rfl rfl,
   (parse_backend_identity_amended ⟨none, none⟩ ⟨0, "", none, none⟩).2.2.2 rfl rfl⟩

end ResourcePolicies
